import Mathlib

/-!
Verification of the SDMX codelist browser (`streamlit_app.py`).

The program parses SDMX-ML structure documents with `xml.etree.ElementTree`
and exports the resulting records as CSV (via `pandas.DataFrame.to_csv`)
and as a PDF (via `reportlab`).  We shallowly embed the parsed XML tree
(the output of `ET.fromstring`) as an inductive rose tree, and translate
the two parsing functions and the two export paths into Lean functions
over that tree.  The byte-level XML parser itself belongs to the external
`xml.etree` library, so it is treated as a boundary: a value of type
`Except String Element` is either the parsed root element or a
`xml.etree.ElementTree.ParseError` diagnostic.
-/

namespace StreamlitMeta

/-- An `xml.etree.ElementTree.Element`: a qualified tag of the form
`\x7buri\x7dlocal`, an attribute dictionary (well-formed XML has unique
attribute names, so an association list looked up by first match models
the Python `dict`), the `.text` field (`None` when the element has no
leading text, as for `<Name/>` or `<Name></Name>`), and the child
elements in document order. -/
inductive Element where
  | mk (tag : String) (attrs : List (String × String)) (text : Option String)
      (children : List Element)

def Element.tag : Element → String
  | .mk t _ _ _ => t

def Element.attrs : Element → List (String × String)
  | .mk _ a _ _ => a

def Element.text : Element → Option String
  | .mk _ _ x _ => x

def Element.children : Element → List Element
  | .mk _ _ _ c => c

mutual

/-- All proper descendants of an element, in document (preorder) order. -/
def descendants : Element → List Element
  | .mk _ _ _ cs => descList cs

def descList : List Element → List Element
  | [] => []
  | c :: cs => (c :: descendants c) ++ descList cs

end

/-- `elem.findall(".//tag", namespaces)` with an already-qualified tag:
every proper descendant whose tag matches, in document order. -/
def findallDesc (t : String) (e : Element) : List Element :=
  (descendants e).filter (fun c => c.tag = t)

/-- Python `dict.get`: first (unique) binding of the key. -/
def assocGet {α : Type} (l : List (String × α)) (k : String) : Option α :=
  match l with
  | [] => none
  | (k2, v) :: rest => if k2 = k then some v else assocGet rest k

/-- `d[k] = v` on a Python `dict`: replace the value in place if the key
is present, otherwise append the new binding. -/
def dictInsert {α : Type} (d : List (String × α)) (k : String) (v : α) :
    List (String × α) :=
  match d with
  | [] => [(k, v)]
  | (k2, v2) :: rest =>
      if k2 = k then (k2, v) :: rest else (k2, v2) :: dictInsert rest k v

def optOr {α : Type} : Option α → Option α → Option α
  | some v, _ => some v
  | none, b => b

def structureNs : String :=
  "http://www.sdmx.org/resources/sdmxml/schemas/v2_1/structure"

def commonNs : String :=
  "http://www.sdmx.org/resources/sdmxml/schemas/v2_1/common"

def xmlNs : String := "http://www.w3.org/XML/1998/namespace"

/-- ElementTree qualified name `\x7buri\x7dlocal`. -/
def qn (ns ln : String) : String := "\x7b" ++ ns ++ "\x7d" ++ ln

def structCodelistTag : String := qn structureNs "Codelist"

def structCodeTag : String := qn structureNs "Code"

def commonNameTag : String := qn commonNs "Name"

def xmlLangKey : String := qn xmlNs "lang"

/-- The `(language, text)` pairs of the descendant `common:Name` elements
of `e`, in document order; the language is
`name_elem.attrib.get("\x7b...\x7dlang", "unknown")` and the value is
`name_elem.text`. -/
def nameEntries (e : Element) : List (String × Option String) :=
  (findallDesc commonNameTag e).map
    (fun ne => ((assocGet ne.attrs xmlLangKey).getD "unknown", ne.text))

/-- The `names` dictionary both parsers build: start from `\x7b\x7d` and run
`names[lang] = name_elem.text` over the descendant `common:Name` elements
in document order. -/
def elemNames (e : Element) : List (String × Option String) :=
  (nameEntries e).foldl (fun d p => dictInsert d p.1 p.2) []

/-- `names.get(lang, "N/A")`: the stored value (which may itself be the
Python `None`, i.e. `none`) when the language is a key, else the string
`"N/A"`. -/
def cellGet (d : List (String × Option String)) (k : String) : Option String :=
  match assocGet d k with
  | none => some "N/A"
  | some t => t

/-- Python `str.lower()`, character by character (the attribute values in
play — `"true"`, `"TRUE"`, `"Unknown"`, … — are ASCII, where this agrees
with Python). -/
def strLower (s : String) : String := String.mk (s.data.map Char.toLower)

/-- One row of the registry `DataFrame` (keys `Codelist ID`, `Agency ID`,
`Version`, `Is Final`, `Structure URL`, `Name (en)`, `Name (fr)`).
A cell of an object column is either a Python string or `None`, hence
`Option String` for the two name cells. -/
structure RegistryRow where
  codelistId : String
  agencyId : String
  version : String
  isFinal : Bool
  structureUrl : String
  nameEn : Option String
  nameFr : Option String
deriving DecidableEq, Repr

/-- One row of the detail `DataFrame` (keys `Code ID`, `Name (en)`,
`Name (fr)`). -/
structure DetailRow where
  codeId : String
  nameEn : Option String
  nameFr : Option String
deriving DecidableEq, Repr

/-- The body of the registry loop: one `Codelist` element to one row,
with the sentinel defaults of `attrib.get` and
`attrib.get("isFinal", "Unknown").lower() == "true"`. -/
def parseCodelist (cl : Element) : RegistryRow :=
  { codelistId := (assocGet cl.attrs "id").getD "Unknown ID"
    agencyId := (assocGet cl.attrs "agencyID").getD "Unknown Agency"
    version := (assocGet cl.attrs "version").getD "Unknown Version"
    isFinal := strLower ((assocGet cl.attrs "isFinal").getD "Unknown") == "true"
    structureUrl := (assocGet cl.attrs "structureURL").getD "Unknown URL"
    nameEn := cellGet (elemNames cl) "en"
    nameFr := cellGet (elemNames cl) "fr" }

/-- The body of the detail loop: one `Code` element to one row. -/
def parseCode (c : Element) : DetailRow :=
  { codeId := (assocGet c.attrs "id").getD "Unknown Code"
    nameEn := cellGet (elemNames c) "en"
    nameFr := cellGet (elemNames c) "fr" }

def registryRows (root : Element) : List RegistryRow :=
  (findallDesc structCodelistTag root).map parseCodelist

def codeRows (root : Element) : List DetailRow :=
  (findallDesc structCodeTag root).map parseCode

/-- What a parsing function hands back to the app: the `st.error`
messages it emitted and the rows of the returned `DataFrame`. -/
structure ParseOutcome (α : Type) where
  errors : List String
  records : List α
deriving DecidableEq, Repr

/-- `fetch_codelists_from_xml`, from the `ET.fromstring` boundary on:
on a `ParseError` it emits `st.error(f"Error parsing XML: ...")` and
returns an empty `DataFrame`; on a parsed root it returns one row per
`structure:Codelist` descendant. -/
def fetch_codelists_from_xml (pr : Except String Element) :
    ParseOutcome RegistryRow :=
  match pr with
  | .error e => { errors := ["Error parsing XML: " ++ e], records := [] }
  | .ok root => { errors := [], records := registryRows root }

/-- `parse_codelist_items`, from the `ET.fromstring` boundary on. -/
def parse_codelist_items (pr : Except String Element) :
    ParseOutcome DetailRow :=
  match pr with
  | .error e => { errors := ["Error parsing codelist XML: " ++ e], records := [] }
  | .ok root => { errors := [], records := codeRows root }

/-! ### CSV export

`codelist_items_df.to_csv(csv_buffer, index=False, encoding="ISO-8859-1")`
followed by `csv_buffer.getvalue().encode("ISO-8859-1")`.  The `encoding`
argument of `to_csv` is ignored when writing to an in-memory text buffer;
the text is produced first and only then encoded.  `to_csv` writes one
header line holding the column labels and one line per row, each
terminated by `"\n"`; a `None` cell renders as the empty field
(`na_rep=""`); fields containing the delimiter, the quote character or a
line break are quoted with `"` and embedded quotes are doubled
(`QUOTE_MINIMAL`).  A `DataFrame` built from an empty list of records has
no columns at all, so its header line is empty. -/

def cellStr : Option String → String
  | none => ""
  | some s => s

def needsQuote (s : String) : Bool :=
  s.data.any (fun c => c = ',' ∨ c = '\"' ∨ c = '\n' ∨ c = '\r')

def escQuotes (s : String) : String :=
  String.mk (s.data.foldr (fun c acc =>
    if c = '\"' then '\"' :: '\"' :: acc else c :: acc) [])

def csvField (s : String) : String :=
  if needsQuote s then "\"" ++ escQuotes s ++ "\"" else s

def joinSep (sep : String) : List String → String
  | [] => ""
  | [x] => x
  | x :: xs => x ++ sep ++ joinSep sep xs

def concatAll : List String → String
  | [] => ""
  | x :: xs => x ++ concatAll xs

def csvLine (fields : List String) : String :=
  joinSep "," (fields.map csvField) ++ "\n"

/-- Column labels of `pd.DataFrame(items)`: the dictionary keys when at
least one record exists, no columns for the empty list. -/
def detailColumns (rows : List DetailRow) : List String :=
  match rows with
  | [] => []
  | _ => ["Code ID", "Name (en)", "Name (fr)"]

def rowFields (r : DetailRow) : List String :=
  [r.codeId, cellStr r.nameEn, cellStr r.nameFr]

/-- The text `to_csv(index=False)` leaves in the `StringIO` buffer. -/
def toCsv (rows : List DetailRow) : String :=
  csvLine (detailColumns rows) ++ concatAll (rows.map (fun r => csvLine (rowFields r)))

/-- `str.encode("ISO-8859-1")`: byte-per-character for code points up to
255, `UnicodeEncodeError` as soon as any character lies outside
Latin-1. -/
def encodeLatin1 (s : String) : Except String (List Nat) :=
  if s.data.all (fun c => c.toNat ≤ 255) then .ok (s.data.map Char.toNat)
  else .error "UnicodeEncodeError"

/-- The downloadable CSV bytes:
`csv_buffer.getvalue().encode("ISO-8859-1")`. -/
def csvBytes (rows : List DetailRow) : Except String (List Nat) :=
  encodeLatin1 (toCsv rows)

/-! ### PDF export

`create_pdf` opens one reportlab canvas (letter page, 612 x 792 points),
starts a single text object at `(50, 750)` with `Helvetica` size 10
(hence leading 12), writes a title line, a 50-dash separator, then per
row the three labelled lines and a blank line, and saves.  `showPage` is
never called, so the document always has exactly one page; each
`textLine` moves the cursor 12 points down, so line `i` (0-based) sits at
`y = 750 - 12 * i`.  An f-string renders a `None` cell as the text
`"None"`. -/

def pyFmt : Option String → String
  | none => "None"
  | some s => s

def dashSep : String := String.mk (List.replicate 50 '-')

def pdfLines (rows : List DetailRow) : List String :=
  "Codelist Details" :: dashSep ::
    (rows.map (fun r =>
      ["Code ID: " ++ r.codeId,
       "Name (en): " ++ pyFmt r.nameEn,
       "Name (fr): " ++ pyFmt r.nameFr,
       ""])).flatten

/-- Baseline y-coordinate of the i-th text line on the single page. -/
def pdfLineY (i : Nat) : Int := 750 - 12 * (i : Int)

def letterPageHeight : Int := 792

structure PdfModel where
  lines : List String
  pageCount : Nat
deriving DecidableEq, Repr

/-- `create_pdf`: the accumulated text lines and the page count of the
produced document (always 1: the single text object is drawn and the
canvas saved without any `showPage`). -/
def create_pdf (rows : List DetailRow) : PdfModel :=
  { lines := pdfLines rows, pageCount := 1 }

/-! ### Concrete documents used as witnesses and counterexamples -/

def nameElemEn : Element := .mk commonNameTag [(xmlLangKey, "en")] (some "Sex") []

def nameElemFr : Element := .mk commonNameTag [(xmlLangKey, "fr")] (some "Sexe") []

/-- The `s:Codelist` element of the concrete scenario of the spec. -/
def clSex : Element :=
  .mk structCodelistTag
    [("id", "CL_SEX"), ("agencyID", "SPC"), ("version", "1.0"),
     ("isFinal", "true"), ("structureURL", "http://x/cl_sex")]
    none [nameElemEn, nameElemFr]

/-- The registry document of the concrete scenario (root `m:Codelists`). -/
def regDoc : Element :=
  .mk (qn "http://www.sdmx.org/resources/sdmxml/schemas/v2_1/message" "Codelists")
    [] none [clSex]

def nameElemDe : Element :=
  .mk commonNameTag [(xmlLangKey, "de")] (some "Geschlecht") []

/-- A codelist whose only name is German. -/
def clWithDe : Element := .mk structCodelistTag [("id", "CL_A")] none [nameElemDe]

/-- The same codelist with no names at all. -/
def clNoNames : Element := .mk structCodelistTag [("id", "CL_A")] none []

def regDocDe : Element := .mk "root" [] none [clWithDe]

def regDocNoNames : Element := .mk "root" [] none [clNoNames]

/-- A `Codelist` element with no attributes at all. -/
def clBare : Element := .mk structCodelistTag [] none []

/-- A `Codelist` element with `isFinal="maybe"`. -/
def clMaybe : Element := .mk structCodelistTag [("isFinal", "maybe")] none []

/-- A `Code` element with no `Name` children. -/
def codeNoNames : Element := .mk structCodeTag [("id", "C1")] none []

/-- A `Code` element whose English `Name` child is present but empty
(`<Name xml:lang="en"/>`, so `.text` is `None`). -/
def codeEmptyEn : Element :=
  .mk structCodeTag [("id", "C2")] none
    [.mk commonNameTag [(xmlLangKey, "en")] none []]

/-- A record whose English name contains a character outside Latin-1. -/
def rowOmega : DetailRow := { codeId := "A", nameEn := some "Ω", nameFr := some "x" }

/-- Sixteen records: enough lines (2 + 16 * 4 = 66) to run past the
bottom of a letter page. -/
def rows16 : List DetailRow :=
  List.replicate 16 { codeId := "X", nameEn := some "a", nameFr := some "b" }

/-! ### Helper lemmas -/

theorem assocGet_dictInsert {α : Type} (d : List (String × α)) (k k2 : String) (v : α) :
    assocGet (dictInsert d k v) k2 = if k = k2 then some v else assocGet d k2 := by
  induction d with
  | nil => by_cases h : k = k2 <;> simp [dictInsert, assocGet, h]
  | cons p rest ih =>
    obtain ⟨a, b⟩ := p
    by_cases hak : a = k
    · subst hak
      by_cases h2 : a = k2 <;> simp [dictInsert, assocGet, h2]
    · by_cases h2 : a = k2
      · subst h2
        have hk2 : ¬(k = a) := fun h => hak h.symm
        simp [dictInsert, hak, assocGet, hk2]
      · simp [dictInsert, hak, assocGet, h2, ih]

theorem assocGet_append {α : Type} (l1 l2 : List (String × α)) (k : String) :
    assocGet (l1 ++ l2) k = optOr (assocGet l1 k) (assocGet l2 k) := by
  induction l1 with
  | nil => simp [assocGet, optOr]
  | cons p rest ih =>
    obtain ⟨a, b⟩ := p
    by_cases h : a = k <;> simp [assocGet, h, optOr, ih]

theorem optOr_none {α : Type} (a : Option α) : optOr a none = a := by
  cases a <;> rfl

theorem optOr_assoc {α : Type} (a b c : Option α) :
    optOr (optOr a b) c = optOr a (optOr b c) := by
  cases a <;> rfl

theorem assocGet_foldl_dictInsert {α : Type} (l : List (String × α)) :
    ∀ (d : List (String × α)) (k : String),
      assocGet (l.foldl (fun d p => dictInsert d p.1 p.2) d) k
        = optOr (assocGet l.reverse k) (assocGet d k) := by
  induction l with
  | nil => intro d k; simp [assocGet, optOr]
  | cons p rest ih =>
    intro d k
    rw [List.foldl_cons, ih, List.reverse_cons, assocGet_append, optOr_assoc]
    congr 1
    rw [assocGet_dictInsert]
    obtain ⟨a, b⟩ := p
    by_cases h : a = k <;> simp [assocGet, h, optOr]

theorem dictInsert_keys {α : Type} (d : List (String × α)) (k : String) (v : α) :
    (dictInsert d k v).map Prod.fst =
      if k ∈ d.map Prod.fst then d.map Prod.fst else d.map Prod.fst ++ [k] := by
  induction d with
  | nil => simp [dictInsert]
  | cons p rest ih =>
    obtain ⟨a, b⟩ := p
    by_cases h : a = k
    · subst h; simp [dictInsert]
    · have h2 : ¬(k = a) := fun hh => h hh.symm
      simp only [dictInsert, h, if_false, List.map_cons, List.mem_cons, h2, false_or, ih]
      by_cases hm : k ∈ rest.map Prod.fst <;> simp [hm]

theorem mem_keys_dictInsert {α : Type} (d : List (String × α)) (k k2 : String) (v : α) :
    k2 ∈ (dictInsert d k v).map Prod.fst ↔ k2 ∈ d.map Prod.fst ∨ k2 = k := by
  rw [dictInsert_keys]
  by_cases h : k ∈ d.map Prod.fst
  · simp only [h, if_true]
    constructor
    · exact fun hh => Or.inl hh
    · rintro (hh | rfl)
      · exact hh
      · exact h
  · simp [h, List.mem_append]

theorem nodup_keys_dictInsert {α : Type} (d : List (String × α)) (k : String) (v : α)
    (hd : (d.map Prod.fst).Nodup) : ((dictInsert d k v).map Prod.fst).Nodup := by
  rw [dictInsert_keys]
  by_cases h : k ∈ d.map Prod.fst
  · simp [h, hd]
  · simp [h, List.nodup_append, hd]

theorem mem_keys_foldl_dictInsert {α : Type} (l : List (String × α)) :
    ∀ (d : List (String × α)) (k : String),
      k ∈ ((l.foldl (fun d p => dictInsert d p.1 p.2) d).map Prod.fst)
        ↔ k ∈ d.map Prod.fst ∨ k ∈ l.map Prod.fst := by
  induction l with
  | nil => intro d k; simp
  | cons p rest ih =>
    intro d k
    rw [List.foldl_cons, ih, mem_keys_dictInsert]
    simp only [List.map_cons, List.mem_cons]
    tauto

theorem nodup_keys_foldl_dictInsert {α : Type} (l : List (String × α)) :
    ∀ (d : List (String × α)), (d.map Prod.fst).Nodup →
      ((l.foldl (fun d p => dictInsert d p.1 p.2) d).map Prod.fst).Nodup := by
  induction l with
  | nil => intro d hd; exact hd
  | cons p rest ih =>
    intro d hd
    rw [List.foldl_cons]
    exact ih _ (nodup_keys_dictInsert _ _ _ hd)

theorem strData_append (a b : String) : (a ++ b).data = a.data ++ b.data := rfl

theorem mem_escList (c : Char) (l : List Char) (h : c ∈ l) :
    c ∈ l.foldr (fun ch acc => if ch = '\"' then '\"' :: '\"' :: acc else ch :: acc) [] := by
  induction l with
  | nil => cases h
  | cons a rest ih =>
    rcases List.mem_cons.mp h with rfl | h2
    · by_cases ha : c = '\"' <;> simp [List.foldr_cons, ha]
    · have hr := ih h2
      by_cases ha : a = '\"' <;> simp [List.foldr_cons, ha, hr]

theorem mem_escQuotes {c : Char} {s : String} (h : c ∈ s.data) : c ∈ (escQuotes s).data :=
  mem_escList c s.data h

theorem mem_csvField {c : Char} {s : String} (h : c ∈ s.data) : c ∈ (csvField s).data := by
  unfold csvField
  split
  · rw [strData_append, strData_append]
    exact List.mem_append.mpr (Or.inl (List.mem_append.mpr (Or.inr (mem_escQuotes h))))
  · exact h

theorem mem_joinSep {c : Char} (sep : String) :
    ∀ (l : List String) (x : String), x ∈ l → c ∈ x.data → c ∈ (joinSep sep l).data := by
  intro l
  induction l with
  | nil => intro x hx _; cases hx
  | cons y ys ih =>
    intro x hx hc
    cases ys with
    | nil =>
      rcases List.mem_cons.mp hx with rfl | h2
      · simpa [joinSep] using hc
      · cases h2
    | cons z zs =>
      rcases List.mem_cons.mp hx with rfl | h2
      · simp only [joinSep, strData_append]
        exact List.mem_append.mpr (Or.inl (List.mem_append.mpr (Or.inl hc)))
      · simp only [joinSep, strData_append]
        exact List.mem_append.mpr (Or.inr (ih x h2 hc))

theorem mem_concatAll {c : Char} :
    ∀ (l : List String) (x : String), x ∈ l → c ∈ x.data → c ∈ (concatAll l).data := by
  intro l
  induction l with
  | nil => intro x hx _; cases hx
  | cons y ys ih =>
    intro x hx hc
    rcases List.mem_cons.mp hx with rfl | h2
    · simp only [concatAll, strData_append]
      exact List.mem_append.mpr (Or.inl hc)
    · simp only [concatAll, strData_append]
      exact List.mem_append.mpr (Or.inr (ih x h2 hc))

theorem mem_csvLine {c : Char} {fields : List String} {x : String}
    (hx : x ∈ fields) (hc : c ∈ x.data) : c ∈ (csvLine fields).data := by
  unfold csvLine
  rw [strData_append]
  exact List.mem_append.mpr (Or.inl (mem_joinSep "," (fields.map csvField) (csvField x)
    (List.mem_map_of_mem csvField hx) (mem_csvField hc)))

/-! ### Claims -/

/-- C1: for every well-formed registry document the registry parse returns
one `CodelistSummary` record per `structure:Codelist` descendant of the
root, in document order, and the detail parse returns one `CodeRecord`
per `structure:Code` descendant, in document order. -/
theorem c1_count_and_document_order (root : Element) :
    ((fetch_codelists_from_xml (.ok root)).records.length
        = ((descendants root).filter (fun e => e.tag = structCodelistTag)).length)
    ∧ (∀ i : Nat, (fetch_codelists_from_xml (.ok root)).records[i]?
        = ((descendants root).filter (fun e => e.tag = structCodelistTag))[i]?.map parseCodelist)
    ∧ ((parse_codelist_items (.ok root)).records.length
        = ((descendants root).filter (fun e => e.tag = structCodeTag)).length)
    ∧ (∀ i : Nat, (parse_codelist_items (.ok root)).records[i]?
        = ((descendants root).filter (fun e => e.tag = structCodeTag))[i]?.map parseCode) := by
  refine ⟨?_, fun i => ?_, ?_, fun i => ?_⟩ <;>
    simp [fetch_codelists_from_xml, parse_codelist_items, registryRows, codeRows,
      findallDesc, List.getElem?_map]

/-- C2: the concrete registry document with one `CL_SEX` codelist parses to
exactly one record with the five scalar fields of the scenario, and the
name dictionary built for that element is exactly
`en ↦ Sex, fr ↦ Sexe`. -/
theorem c2_concrete_scenario :
    (fetch_codelists_from_xml (.ok regDoc)).records
      = [{ codelistId := "CL_SEX", agencyId := "SPC", version := "1.0",
           isFinal := true, structureUrl := "http://x/cl_sex",
           nameEn := some "Sex", nameFr := some "Sexe" }]
    ∧ elemNames clSex = [("en", some "Sex"), ("fr", some "Sexe")]
    ∧ (fetch_codelists_from_xml (.ok regDoc)).errors = [] := by
  decide

/-- C3: when the `ET.fromstring` boundary reports that the bytes are not
well-formed XML, each parser surfaces exactly one error message carrying
the underlying diagnostic and returns an empty record sequence. -/
theorem c3_malformed_input (e : String) :
    (fetch_codelists_from_xml (.error e)).records = []
    ∧ (fetch_codelists_from_xml (.error e)).errors = ["Error parsing XML: " ++ e]
    ∧ (parse_codelist_items (.error e)).records = []
    ∧ (parse_codelist_items (.error e)).errors = ["Error parsing codelist XML: " ++ e] :=
  ⟨rfl, rfl, rfl, rfl⟩

/-- C4: a `Codelist` element without an `id` attribute yields the sentinel
`"Unknown ID"`; `isFinal` is the lower-cased raw attribute text compared
for equality with `"true"`, so a missing attribute and any
non-case-insensitive-"true" value both yield `false`; the element always
yields a record. -/
theorem c4_sentinel_defaults (cl : Element) :
    (assocGet cl.attrs "id" = none → (parseCodelist cl).codelistId = "Unknown ID")
    ∧ ((parseCodelist cl).isFinal
        = (strLower ((assocGet cl.attrs "isFinal").getD "Unknown") == "true"))
    ∧ (assocGet cl.attrs "isFinal" = none → (parseCodelist cl).isFinal = false)
    ∧ (∀ v : String, assocGet cl.attrs "isFinal" = some v → strLower v ≠ "true" →
        (parseCodelist cl).isFinal = false) := by
  refine ⟨?_, rfl, ?_, ?_⟩
  · intro h
    show (assocGet cl.attrs "id").getD "Unknown ID" = "Unknown ID"
    rw [h]
    rfl
  · intro h
    show (strLower ((assocGet cl.attrs "isFinal").getD "Unknown") == "true") = false
    rw [h]
    decide
  · intro v hv hne
    show (strLower ((assocGet cl.attrs "isFinal").getD "Unknown") == "true") = false
    rw [hv]
    exact beq_eq_false_iff_ne.mpr hne

/-- Witness for C4 at concrete elements: no attributes at all gives the
`id` sentinel and `isFinal = false`; `isFinal="maybe"` also gives
`false`. -/
theorem c4_sentinel_defaults_witness :
    (parseCodelist clBare).codelistId = "Unknown ID"
    ∧ (parseCodelist clBare).isFinal = false
    ∧ (parseCodelist clMaybe).isFinal = false :=
  ⟨(c4_sentinel_defaults clBare).1 rfl,
   (c4_sentinel_defaults clBare).2.2.1 rfl,
   (c4_sentinel_defaults clMaybe).2.2.2 "maybe" rfl (by decide)⟩

/-- C5 counterexample: the records produced by the registry parse do not
carry the per-language name mapping.  A codelist whose only name is
German and the same codelist with no names at all produce identical
records (the mapping of the first contains `de ↦ Geschlecht`, the second
is empty), so no record can carry one entry per language found. -/
theorem c5_record_lacks_mapping :
    parseCodelist clWithDe = parseCodelist clNoNames
    ∧ registryRows regDocDe = registryRows regDocNoNames
    ∧ elemNames clWithDe ≠ elemNames clNoNames
    ∧ ("de", some "Geschlecht") ∈ elemNames clWithDe := by
  decide

/-- C5 amended: during the registry parse each `Codelist` element gets a
name dictionary with one entry per language tag found among its
descendant `common:Name` elements (tag from `xml:lang`, default
`"unknown"`), where looking a language up returns the text of the last
such `Name` in document order; the produced record retains only the
`"en"` and `"fr"` entries of that dictionary. -/
theorem c5_names_last_occurrence_wins (cl : Element) (k : String) :
    assocGet (elemNames cl) k = assocGet (nameEntries cl).reverse k
    ∧ ((elemNames cl).map Prod.fst).Nodup
    ∧ (k ∈ (elemNames cl).map Prod.fst ↔ k ∈ (nameEntries cl).map Prod.fst)
    ∧ (parseCodelist cl).nameEn = cellGet (elemNames cl) "en"
    ∧ (parseCodelist cl).nameFr = cellGet (elemNames cl) "fr" := by
  refine ⟨?_, ?_, ?_, rfl, rfl⟩
  · unfold elemNames
    rw [assocGet_foldl_dictInsert]
    exact optOr_none _
  · exact nodup_keys_foldl_dictInsert _ _ (by simp)
  · unfold elemNames
    rw [mem_keys_foldl_dictInsert]
    simp [nameEntries]

/-- C6 counterexample: applied to the empty record sequence the CSV export
does not produce the three-column header row — the `DataFrame` built from
an empty list has no columns, so the buffer holds a single empty line. -/
theorem c6_empty_csv_has_no_header :
    toCsv [] = "\n" ∧ toCsv [] ≠ "Code ID,Name (en),Name (fr)\n" := by
  decide

/-- C6 amended: on the empty record sequence neither export fails: the CSV
text is a single empty line (no columns, hence no header) which encodes
to the single byte 10, and the PDF is title-only (title and separator
lines on its one page). -/
theorem c6_empty_exports :
    toCsv [] = "\n"
    ∧ csvBytes [] = .ok [10]
    ∧ (create_pdf []).lines = ["Codelist Details", dashSep]
    ∧ (create_pdf []).pageCount = 1 :=
  ⟨by decide, rfl, by decide, rfl⟩

/-- C7: `create_pdf` does not paginate.  Sixteen records produce 66 text
lines; every line from index 63 on has a negative baseline y-coordinate
(off the bottom of the letter page), yet the produced document still has
exactly one page. -/
theorem c7_no_pagination_on_overflow :
    (create_pdf rows16).pageCount = 1
    ∧ (create_pdf rows16).lines.length = 66
    ∧ 0 ≤ pdfLineY 62
    ∧ pdfLineY 63 < 0
    ∧ pdfLineY 65 < 0
    ∧ pdfLineY 65 < letterPageHeight := by
  decide

/-- C8: a `CodeRecord` whose name dictionary has no `"en"` entry gets the
literal `"N/A"` in its `Name (en)` cell, rendered unchanged in the CSV
export; symmetrically for `"fr"`. -/
theorem c8_absent_language_renders_na (c : Element) :
    (assocGet (elemNames c) "en" = none →
      (parseCode c).nameEn = some "N/A"
      ∧ csvField (cellStr (parseCode c).nameEn) = "N/A")
    ∧ (assocGet (elemNames c) "fr" = none →
      (parseCode c).nameFr = some "N/A"
      ∧ csvField (cellStr (parseCode c).nameFr) = "N/A") := by
  constructor
  · intro h
    have h1 : (parseCode c).nameEn = some "N/A" := by
      show cellGet (elemNames c) "en" = some "N/A"
      unfold cellGet
      rw [h]
    refine ⟨h1, ?_⟩
    rw [h1]
    decide
  · intro h
    have h1 : (parseCode c).nameFr = some "N/A" := by
      show cellGet (elemNames c) "fr" = some "N/A"
      unfold cellGet
      rw [h]
    refine ⟨h1, ?_⟩
    rw [h1]
    decide

/-- Witness for C8 at a `Code` element with no `Name` children. -/
theorem c8_absent_language_renders_na_witness :
    (parseCode codeNoNames).nameEn = some "N/A"
    ∧ (parseCode codeNoNames).nameFr = some "N/A" :=
  ⟨((c8_absent_language_renders_na codeNoNames).1 (by decide)).1,
   ((c8_absent_language_renders_na codeNoNames).2 (by decide)).1⟩

/-- C9: when the (effective, last in document order) English `Name` of an
element is present but empty, both parsers store the Python `None` for
`"en"` — not `"N/A"` and not the empty string — and that `None` flows
into the exported cell (empty CSV field, `"None"` in the PDF line). -/
theorem c9_empty_text_stored_as_null (c : Element)
    (h : assocGet (nameEntries c).reverse "en" = some none) :
    assocGet (elemNames c) "en" = some none
    ∧ (parseCode c).nameEn = none
    ∧ (parseCodelist c).nameEn = none
    ∧ (parseCode c).nameEn ≠ some "N/A"
    ∧ (parseCode c).nameEn ≠ some ""
    ∧ cellStr (parseCode c).nameEn = ""
    ∧ pyFmt (parseCode c).nameEn = "None" := by
  have h1 : assocGet (elemNames c) "en" = some none := by
    unfold elemNames
    rw [assocGet_foldl_dictInsert, h]
    rfl
  have h2 : (parseCode c).nameEn = none := by
    show cellGet (elemNames c) "en" = none
    unfold cellGet
    rw [h1]
  have h3 : (parseCodelist c).nameEn = none := by
    show cellGet (elemNames c) "en" = none
    unfold cellGet
    rw [h1]
  refine ⟨h1, h2, h3, ?_, ?_, ?_, ?_⟩
  · simp [h2]
  · simp [h2]
  · rw [h2]
    rfl
  · rw [h2]
    rfl

/-- Witness for C9 at a `Code` element whose English name is
`<Name xml:lang="en"/>`. -/
theorem c9_empty_text_stored_as_null_witness :
    assocGet (elemNames codeEmptyEn) "en" = some none
    ∧ (parseCode codeEmptyEn).nameEn = none :=
  ⟨(c9_empty_text_stored_as_null codeEmptyEn (by decide)).1,
   (c9_empty_text_stored_as_null codeEmptyEn (by decide)).2.1⟩

/-- C10: the CSV export builds the text first and only then encodes it to
ISO-8859-1; if any field of any record contains a character above code
point 255, the encoding step fails with a `UnicodeEncodeError`. -/
theorem c10_non_latin1_encoding_fails (rows : List DetailRow) (r : DetailRow)
    (f : String) (c : Char)
    (hr : r ∈ rows) (hf : f ∈ rowFields r) (hc : c ∈ f.data) (hbig : 255 < c.toNat) :
    csvBytes rows = .error "UnicodeEncodeError" := by
  have hline : c ∈ (csvLine (rowFields r)).data := mem_csvLine hf hc
  have hbody : c ∈ (concatAll (rows.map (fun r2 => csvLine (rowFields r2)))).data :=
    mem_concatAll _ _ (List.mem_map_of_mem _ hr) hline
  have hcsv : c ∈ (toCsv rows).data := by
    unfold toCsv
    rw [strData_append]
    exact List.mem_append.mpr (Or.inr hbody)
  have hall : (toCsv rows).data.all (fun ch => ch.toNat ≤ 255) = false := by
    rw [List.all_eq_false]
    refine ⟨c, hcsv, ?_⟩
    simp only [decide_eq_true_eq]
    omega
  unfold csvBytes encodeLatin1
  simp [hall]

/-- Witness for C10: one record whose English name is `"Ω"`
(code point 937). -/
theorem c10_non_latin1_encoding_fails_witness :
    csvBytes [rowOmega] = .error "UnicodeEncodeError" :=
  c10_non_latin1_encoding_fails [rowOmega] rowOmega "Ω" 'Ω'
    (by decide) (by decide) (by decide) (by decide)

end StreamlitMeta
